import Mathlib

/-!
Verification development for the TrueNAS fleet monitor backend (`backend.py`).

Shallow-embedding conventions:
* The SQLite `metrics` table is a `List MetricRow` in insertion order; the
  `AUTOINCREMENT` primary key is the `rowid` field, strictly increasing with
  insertion, and serves as the insertion sequence.
* SQL timestamps (second-resolution `CURRENT_TIMESTAMP` text, compared
  lexicographically, which agrees with chronological order) are modelled as
  `Int` seconds; `datetime('now', '-N hours')` becomes `now - N * 3600`.
* `REAL` metric values are modelled as `Int`: every threshold appearing in the
  verified claims (45, 55, 0, epoch-second cutoffs) is integral.
* A SQL `LIKE` pattern of the shape `'%' ++ tail` is modelled by `likeTail`,
  where each `_` inside `tail` is a single-character wildcard, exactly as in
  SQLite.
* `ORDER BY metric_name, timestamp DESC` feeds the scan (rowid order) through
  a sorter; rows with identical `(metric_name, timestamp)` keys are kept in
  scan order, which we make explicit by adding the ascending `rowid` tiebreak
  to the comparison.  The claims proved below either do not depend on that
  tiebreak or explicitly exclude key ties.
* Fallible endpoints return `Except ApiError`.
-/

/-- A row of the `metrics` table (`backend.py`, `init_db`): `id` (AUTOINCREMENT,
here `rowid`), `system_id`, `timestamp` (DEFAULT CURRENT_TIMESTAMP),
`metric_type`, `metric_name`, `value`, `unit`.  The opaque `metadata` JSON
column is omitted: the embedded logic never inspects it. -/
structure MetricRow where
  rowid : Nat
  system_id : String
  timestamp : Int
  metric_type : String
  metric_name : String
  value : Int
  unit : Option String
deriving DecidableEq

/-- Split a character list at its LAST underscore: Python `s.rsplit('_', 1)`
restricted to the split-found case; `none` when no underscore occurs. -/
def rsplitOnce : List Char → Option (List Char × List Char)
  | [] => none
  | c :: cs =>
    match rsplitOnce cs with
    | some (l, r) => some (c :: l, r)
    | none => if c = '_' then some ([], cs) else none

/-- Split a character list at its FIRST underscore: Python `s.split('_', 1)`
restricted to the split-found case; `none` when no underscore occurs. -/
def lsplitOnce : List Char → Option (List Char × List Char)
  | [] => none
  | c :: cs =>
    if c = '_' then some ([], cs)
    else
      match lsplitOnce cs with
      | some (l, r) => some (c :: l, r)
      | none => none

/-- Key decoding in `get_system_disks` (backend.py:806-811): `rsplit('_', 1)`;
two parts give `(disk_id, attr)`, otherwise `(name, "value")`. -/
def splitDiskName (name : String) : String × String :=
  match rsplitOnce name.data with
  | some (l, r) => (⟨l⟩, ⟨r⟩)
  | none => (name, "value")

/-- Key decoding in `get_system_replication` (backend.py:1035-1040), textually
the same rightmost split as `splitDiskName`. -/
def splitTaskName (name : String) : String × String :=
  match rsplitOnce name.data with
  | some (l, r) => (⟨l⟩, ⟨r⟩)
  | none => (name, "value")

/-- Key decoding in `get_system_pools` (backend.py:1267-1273):
`split('_', 1)`; the part before the first underscore is the pool name, the
rest (further underscores included) is the attribute, `"value"` when the name
has no underscore. -/
def splitPoolNameSystem (name : String) : String × String :=
  match lsplitOnce name.data with
  | some (l, r) => (⟨l⟩, ⟨r⟩)
  | none => (name, "value")

/-- Key decoding in `get_all_pools` (backend.py:1336-1342), textually the same
leftmost split as `splitPoolNameSystem`. -/
def splitPoolNameAll (name : String) : String × String :=
  match lsplitOnce name.data with
  | some (l, r) => (⟨l⟩, ⟨r⟩)
  | none => (name, "value")

/-- SQLite `LIKE '%' ++ pat` where every `_` inside `pat` is a one-character
wildcard: the string matches iff its last `pat.length` characters match `pat`
position by position. -/
def likeTail (pat : List Char) (s : List Char) : Bool :=
  decide (pat.length ≤ s.length) &&
    (pat.zip (s.drop (s.length - pat.length))).all fun pc => pc.1 == '_' || pc.1 == pc.2

/-- String wrapper for `likeTail`. -/
def likeMatch (pat : String) (s : String) : Bool :=
  likeTail pat.data s.data

/-- Characters before the first underscore (the whole list when none occurs):
models `SUBSTR(metric_name, 1, INSTR(metric_name || '_', '_') - 1)` used by the
summary endpoints. -/
def prefixBeforeUnderscore : List Char → List Char
  | [] => []
  | c :: cs => if c = '_' then [] else c :: prefixBeforeUnderscore cs

/-- String wrapper for `prefixBeforeUnderscore`. -/
def sqlFirstToken (s : String) : String :=
  ⟨prefixBeforeUnderscore s.data⟩

/-- Drop the last `n` characters: models
`SUBSTR(metric_name, 1, LENGTH(metric_name) - n)`. -/
def stripTail (n : Nat) (s : String) : String :=
  ⟨s.data.take (s.data.length - n)⟩

/-- The windowed row selection of `get_system_metrics` (backend.py:691-704):
`system_id = ?`, optional `metric_type = ?`, and the strict window condition
`timestamp > datetime('now', '-hours hours')`.  The trailing
`ORDER BY timestamp DESC` only permutes the result and is irrelevant to the
membership properties verified here, so it is not modelled. -/
def systemMetricsQuery (db : List MetricRow) (sid : String) (now : Int) (hours : Int)
    (mtype : Option String) : List MetricRow :=
  db.filter fun m =>
    decide (m.system_id = sid) &&
    decide (now - hours * 3600 < m.timestamp) &&
    (match mtype with
     | none => true
     | some t => decide (m.metric_type = t))

/-- The windowed row selection of `get_system_disks` (backend.py:784-790):
`system_id = ?`, `metric_type = 'disk'`, `timestamp > datetime('now', ?)`. -/
def diskWindowRows (db : List MetricRow) (sid : String) (now : Int) (hours : Int) :
    List MetricRow :=
  db.filter fun m =>
    decide (m.system_id = sid) &&
    decide (m.metric_type = "disk") &&
    decide (now - hours * 3600 < m.timestamp)

/-- Byte-wise (BINARY collation) strict string order on character lists, as
SQLite compares TEXT columns; for the ASCII metric names at hand code-point
order and byte order coincide. -/
def charListLt : List Char → List Char → Bool
  | [], [] => false
  | [], _ :: _ => true
  | _ :: _, [] => false
  | a :: as, b :: bs => if a < b then true else if b < a then false else charListLt as bs

/-- Row order produced by `ORDER BY metric_name, timestamp DESC` in
`get_system_disks`, with ties in the SQL key kept in scan (rowid) order. -/
def rowOrderLe (x y : MetricRow) : Bool :=
  if x.metric_name = y.metric_name then
    if x.timestamp = y.timestamp then decide (x.rowid ≤ y.rowid)
    else decide (y.timestamp < x.timestamp)
  else charListLt x.metric_name.data y.metric_name.data

/-- `rowOrderLe` as a relation. -/
def rowOrderR (x y : MetricRow) : Prop :=
  rowOrderLe x y = true

/-- Decidability witness for `rowOrderR`, fixed once so that every use of the
sorter below is about one and the same term. -/
def rowOrderDec : DecidableRel rowOrderR :=
  fun x y => Bool.decEq (rowOrderLe x y) true

/-- Output row order of the `get_system_disks` query. -/
def sortRows (l : List MetricRow) : List MetricRow :=
  @List.insertionSort _ rowOrderR rowOrderDec l

/-- The latest-value projection of `get_system_disks` (backend.py:802-829) for
one decoded `(disk, attr)` pair: the rows are emitted in query order and the
first row seen for the pair wins (`if attr not in disks[disk_id]['metrics']`),
i.e. the projected row is `find?` over the ordered rows. -/
def latestDiskAttr (db : List MetricRow) (sid : String) (now : Int) (hours : Int)
    (d a : String) : Option MetricRow :=
  (sortRows (diskWindowRows db sid now hours)).find? fun m =>
    decide (splitDiskName m.metric_name = (d, a))

/-- All in-window rows of a system that decode to the `(disk, attr)` pair. -/
def diskPairRows (db : List MetricRow) (sid : String) (now : Int) (hours : Int)
    (d a : String) : List MetricRow :=
  (diskWindowRows db sid now hours).filter fun m =>
    decide (splitDiskName m.metric_name = (d, a))

/-- The composite key `system_id || '_' || metric_name` that the summary
queries count `DISTINCT` over. -/
def warnKey (m : MetricRow) : String :=
  m.system_id ++ "_" ++ m.metric_name

/-- The structured `(system_id, metric_name)` pair behind `warnKey`. -/
def warnPair (m : MetricRow) : String × String :=
  (m.system_id, m.metric_name)

/-- `warnKey` factored through `warnPair`. -/
def keyOfPair (p : String × String) : String :=
  p.1 ++ "_" ++ p.2

/-- Row predicate of the disk temperature-warning counter in
`get_disks_summary` (backend.py:924-931): `metric_type = 'disk'`,
`metric_name LIKE '%_temperature'`, `value > 45`,
`timestamp > datetime('now', '-1 hour')`. -/
def tempWarnPred (now : Int) (m : MetricRow) : Bool :=
  decide (m.metric_type = "disk") &&
  likeMatch "_temperature" m.metric_name &&
  decide ((45 : Int) < m.value) &&
  decide (now - 3600 < m.timestamp)

/-- The fleet-wide `temp_warnings` counter (backend.py:924-932):
`COUNT(DISTINCT system_id || '_' || metric_name)` over `tempWarnPred`. -/
def fleetTempWarnings (db : List MetricRow) (now : Int) : Nat :=
  ((db.filter (tempWarnPred now)).map warnKey).dedup.length

/-- The same counting rule restricted to a single system: the per-system
temperature-warning classification for the fleet/per-system consistency
claim. -/
def perSystemTempWarnings (db : List MetricRow) (now : Int) (sid : String) : Nat :=
  ((db.filter fun m => tempWarnPred now m && decide (m.system_id = sid)).map warnKey).dedup.length

/-- System ids contributing at least one temperature warning. -/
def warnSystemIds (db : List MetricRow) (now : Int) : Finset String :=
  ((db.filter (tempWarnPred now)).map (fun m => m.system_id)).toFinset

/-- Sum of the per-system temperature-warning classifications over the systems
of the fleet (the partition of the fleet by system id). -/
def sumPerSystemTempWarnings (db : List MetricRow) (now : Int) : Nat :=
  ∑ s ∈ warnSystemIds db now, perSystemTempWarnings db now s

/-- The `temp_critical` counter of `get_disks_summary` (backend.py:935-943):
as `tempWarnPred` with threshold 55. -/
def tempCritPred (now : Int) (m : MetricRow) : Bool :=
  decide (m.metric_type = "disk") &&
  likeMatch "_temperature" m.metric_name &&
  decide ((55 : Int) < m.value) &&
  decide (now - 3600 < m.timestamp)

/-- `temp_critical` (backend.py:935-943). -/
def tempCritical (db : List MetricRow) (now : Int) : Nat :=
  ((db.filter (tempCritPred now)).map warnKey).dedup.length

/-- Row predicate of the `smart_failures` counter (backend.py:946-954):
`metric_name LIKE '%_smart_status'`, `value = 0`, 24-hour window. -/
def smartFailPred (now : Int) (m : MetricRow) : Bool :=
  decide (m.metric_type = "disk") &&
  likeMatch "_smart_status" m.metric_name &&
  decide (m.value = 0) &&
  decide (now - 86400 < m.timestamp)

/-- `smart_failures` (backend.py:946-954). -/
def smartFailures (db : List MetricRow) (now : Int) : Nat :=
  ((db.filter (smartFailPred now)).map warnKey).dedup.length

/-- `total_disks` (backend.py:914-921): `COUNT(DISTINCT system_id || '_' ||
SUBSTR(metric_name, 1, INSTR(metric_name || '_', '_') - 1))` over disk rows of
the last 24 hours. -/
def totalDisks (db : List MetricRow) (now : Int) : Nat :=
  ((db.filter fun m =>
      decide (m.metric_type = "disk") && decide (now - 86400 < m.timestamp)).map
    fun m => m.system_id ++ "_" ++ sqlFirstToken m.metric_name).dedup.length

/-- `healthy_disks` (backend.py:993): `total_disks - temp_warnings -
smart_failures`, computed WITHOUT a clamp, so the value is an `Int` that can
go negative. -/
def healthyDisks (db : List MetricRow) (now : Int) : Int :=
  (totalDisks db now : Int) - fleetTempWarnings db now - smartFailures db now

/-- The correlated subquery `timestamp = (SELECT MAX(timestamp) FROM metrics m2
WHERE m2.system_id = m1.system_id AND m2.metric_name = m1.metric_name)`:
the row carries the maximal timestamp among rows of its system and name. -/
def isMaxTs (db : List MetricRow) (m : MetricRow) : Bool :=
  (db.filter fun r =>
      decide (r.system_id = m.system_id) && decide (r.metric_name = m.metric_name)).all
    fun r => decide (r.timestamp ≤ m.timestamp)

/-- `total_tasks` of `get_replication_summary` (backend.py:1143-1151). -/
def totalTasks (db : List MetricRow) (now : Int) : Nat :=
  ((db.filter fun m =>
      decide (m.metric_type = "replication") && likeMatch "_status" m.metric_name &&
      decide (now - 86400 < m.timestamp)).map
    fun m => m.system_id ++ "_" ++ stripTail 7 m.metric_name).dedup.length

/-- `failed_tasks` (backend.py:1154-1162): `LIKE '%_status'`, `value = 0`,
24-hour window, `DISTINCT system_id || '_' || metric_name`. -/
def failedTasks (db : List MetricRow) (now : Int) : Nat :=
  ((db.filter fun m =>
      decide (m.metric_type = "replication") && likeMatch "_status" m.metric_name &&
      decide (m.value = 0) && decide (now - 86400 < m.timestamp)).map warnKey).dedup.length

/-- `stale_tasks` (backend.py:1166-1179): latest `_last_run` row per
(system, name) whose epoch-second value is older than 24 hours. -/
def staleTasks (db : List MetricRow) (now : Int) : Nat :=
  ((db.filter fun m =>
      decide (m.metric_type = "replication") && likeMatch "_last_run" m.metric_name &&
      isMaxTs db m && decide (m.value < now - 86400)).map
    fun m => m.system_id ++ "_" ++ stripTail 9 m.metric_name).dedup.length

/-- `healthy_tasks` (backend.py:1223-1225): `total - failed - stale`, clamped
at zero by the explicit `if healthy_tasks < 0: healthy_tasks = 0`. -/
def healthyTasks (db : List MetricRow) (now : Int) : Int :=
  let d : Int := (totalTasks db now : Int) - failedTasks db now - staleTasks db now
  if d < 0 then 0 else d

/-- `total_pools` of `get_pools_summary` (backend.py:1377-1385). -/
def totalPools (db : List MetricRow) (now : Int) : Nat :=
  ((db.filter fun m =>
      (decide (m.metric_type = "pool") || decide (m.metric_type = "pool_health")) &&
      likeMatch "_total" m.metric_name && decide (now - 86400 < m.timestamp)).map
    fun m => m.system_id ++ "_" ++ sqlFirstToken m.metric_name).dedup.length

/-- `degraded_pools` (backend.py:1388-1396). -/
def degradedPools (db : List MetricRow) (now : Int) : Nat :=
  ((db.filter fun m =>
      decide (m.metric_type = "pool_health") && likeMatch "_state" m.metric_name &&
      decide (m.value = 0) && decide (now - 86400 < m.timestamp)).map warnKey).dedup.length

/-- `needs_scrub` (backend.py:1399-1414): latest `_scrub_last` row per
(system, name) whose value is older than seven days. -/
def needsScrub (db : List MetricRow) (now : Int) : Nat :=
  ((db.filter fun m =>
      decide (m.metric_type = "pool_health") && likeMatch "_scrub_last" m.metric_name &&
      isMaxTs db m && decide (m.value < now - 604800)).map
    fun m => m.system_id ++ "_" ++ stripTail 11 m.metric_name).dedup.length

/-- `healthy_pools` (backend.py:1479-1481): `total - degraded - needs_scrub`,
clamped at zero. -/
def healthyPools (db : List MetricRow) (now : Int) : Int :=
  let d : Int := (totalPools db now : Int) - degradedPools db now - needsScrub db now
  if d < 0 then 0 else d

/-- A row of the `alerts` table: `id`, `system_id`, `timestamp`, `severity`,
`message`, `acknowledged` (DEFAULT FALSE), `ticket_id` (NULL until set). -/
structure Alert where
  id : Nat
  system_id : String
  timestamp : Int
  severity : String
  message : String
  acknowledged : Bool
  ticket_id : Option String
deriving DecidableEq

/-- Error taxonomy of the embedded endpoints: the only failure the verified
claims concern is HTTP 404. -/
inductive ApiError where
  | notFound
deriving DecidableEq

/-- Row effect of `UPDATE alerts SET acknowledged = TRUE WHERE id = ?`. -/
def ackUpdate (aid : Nat) (a : Alert) : Alert :=
  if a.id = aid then { a with acknowledged := true } else a

/-- `acknowledge_alert` (backend.py:731-745): `UPDATE alerts SET acknowledged =
TRUE WHERE id = ?`; when the update matches no row the endpoint raises 404 and
the connection is closed without commit, leaving the store unchanged;
otherwise the update is committed. -/
def acknowledge_alert (db : List Alert) (aid : Nat) : Except ApiError (List Alert) :=
  if (db.filter fun a => decide (a.id = aid)).length = 0 then
    Except.error ApiError.notFound
  else
    Except.ok (db.map (ackUpdate aid))

/-- ASCII uppercase of Python `str.upper()` for the PSA names at hand. -/
def upperStr (s : String) : String :=
  ⟨s.data.map Char.toUpper⟩

/-- The mock ticket id `f"{ticket.psa.upper()}-{alert_id}-001"`
(backend.py:756). -/
def mock_ticket_id (psa : String) (aid : Nat) : String :=
  upperStr psa ++ "-" ++ toString aid ++ "-001"

/-- Row effect of `UPDATE alerts SET ticket_id = ?, acknowledged = TRUE WHERE
id = ?`. -/
def ticketUpdate (tid : String) (aid : Nat) (a : Alert) : Alert :=
  if a.id = aid then { a with ticket_id := some tid, acknowledged := true } else a

/-- `create_ticket` (backend.py:747-771): `UPDATE alerts SET ticket_id = ?,
acknowledged = TRUE WHERE id = ?` followed unconditionally by a commit and a
success response — there is no rowcount check and no 404 path. -/
def create_ticket (db : List Alert) (aid : Nat) (psa : String) :
    Except ApiError (List Alert × String) :=
  Except.ok (db.map (ticketUpdate (mock_ticket_id psa aid) aid), mock_ticket_id psa aid)

/-- The operations that write the `alerts` table: the two endpoint transitions
and the ingestion insert (`INSERT INTO alerts ... acknowledged DEFAULT
FALSE`). -/
inductive AlertOp where
  | ack (aid : Nat)
  | ticket (aid : Nat) (psa : String)
  | ins (system_id severity message : String) (ts : Int)

/-- Next AUTOINCREMENT id of the alert store. -/
def nextAlertIdOf (db : List Alert) : Nat :=
  (db.map fun a => a.id).foldr max 0 + 1

/-- Apply one alert-store operation; a 404 leaves the store as it was. -/
def applyAlertOp (db : List Alert) : AlertOp → List Alert
  | AlertOp.ack aid =>
    match acknowledge_alert db aid with
    | Except.ok db' => db'
    | Except.error _ => db
  | AlertOp.ticket aid psa =>
    match create_ticket db aid psa with
    | Except.ok (db', _) => db'
    | Except.error _ => db
  | AlertOp.ins sid sev msg ts =>
    db ++ [⟨nextAlertIdOf db, sid, ts, sev, msg, false, none⟩]

/-- Run a sequence of alert-store operations. -/
def runAlertOps (db : List Alert) (ops : List AlertOp) : List Alert :=
  ops.foldl applyAlertOp db

/-- The `SystemInfo` pydantic model of the webhook payload. -/
structure SystemInfo where
  id : String
  name : String
  hostname : Option String
  version : Option String
  client_name : Option String
deriving DecidableEq

/-- A row of the `systems` table. -/
structure SystemRow where
  id : String
  name : String
  hostname : Option String
  version : Option String
  last_seen : Int
  client_name : Option String
deriving DecidableEq

/-- The `MetricData` pydantic model: note that it carries its own
`system_id`. -/
structure MetricFact where
  system_id : String
  metric_type : String
  metric_name : String
  value : Int
  unit : Option String
deriving DecidableEq

/-- The `AlertData` pydantic model. -/
structure AlertFact where
  system_id : String
  severity : String
  message : String
deriving DecidableEq

/-- The validated `WebhookPayload`. -/
structure WebhookPayload where
  system : SystemInfo
  metrics : List MetricFact
  alerts : List AlertFact

/-- The durable store the webhook writes: systems, metrics and alerts tables
plus the AUTOINCREMENT counters. -/
structure Db where
  systems : List SystemRow
  metrics : List MetricRow
  alerts : List Alert
  nextMetricId : Nat
  nextAlertId : Nat
deriving DecidableEq

/-- The `INSERT ... ON CONFLICT(id) DO UPDATE` system upsert
(backend.py:619-635); `last_seen` is set to the ingestion time.  The declared
FOREIGN KEYs are never enabled (`PRAGMA foreign_keys` is not set), so no
referential check applies anywhere below. -/
def upsertSystem (now : Int) (s : SystemInfo) (db : Db) : Db :=
  if (db.systems.filter fun r => decide (r.id = s.id)).length = 0 then
    { db with systems := db.systems ++ [⟨s.id, s.name, s.hostname, s.version, now, s.client_name⟩] }
  else
    { db with systems := db.systems.map fun r =>
        if r.id = s.id then ⟨s.id, s.name, s.hostname, s.version, now, s.client_name⟩ else r }

/-- The metric insert of the ingestion loop (backend.py:638-649): the row is
stored under `metric.system_id` — the id carried by the metric fact itself,
not the id of the system upserted by the same batch. -/
def insertMetricRow (now : Int) (f : MetricFact) (db : Db) : Db :=
  { db with
    metrics := db.metrics ++
      [⟨db.nextMetricId, f.system_id, now, f.metric_type, f.metric_name, f.value, f.unit⟩],
    nextMetricId := db.nextMetricId + 1 }

/-- The alert insert of the ingestion loop (backend.py:652-656). -/
def insertAlertRow (now : Int) (f : AlertFact) (db : Db) : Db :=
  { db with
    alerts := db.alerts ++ [⟨db.nextAlertId, f.system_id, now, f.severity, f.message, false, none⟩],
    nextAlertId := db.nextAlertId + 1 }

/-- The SQL statements `receive_metrics` issues, in order. -/
inductive Stmt where
  | upsert (s : SystemInfo)
  | metric (f : MetricFact)
  | alert (f : AlertFact)
  | commit

/-- Effect of one statement on the uncommitted draft state (`commit` changes
durability, not the draft). -/
def applyStmt (now : Int) (db : Db) : Stmt → Db
  | Stmt.upsert s => upsertSystem now s db
  | Stmt.metric f => insertMetricRow now f db
  | Stmt.alert f => insertAlertRow now f db
  | Stmt.commit => db

/-- The statement sequence of `receive_metrics` (backend.py:606-665): one
system upsert, the metric inserts, the alert inserts, then a single `commit`
at the very end. -/
def ingestScript (p : WebhookPayload) : List Stmt :=
  Stmt.upsert p.system :: (p.metrics.map Stmt.metric ++ p.alerts.map Stmt.alert ++ [Stmt.commit])

/-- SQLite transaction semantics for a statement list: statements act on a
draft; `commit` publishes the draft as the durable state; a statement that
fails (the oracle `fails` says whether the k-th statement errors) aborts the
call, and whatever was not yet committed is rolled back.  Returns the durable
state and the success flag. -/
def runTxn (now : Int) (fails : Nat → Bool) :
    List Stmt → Nat → Db → Db → Db × Bool
  | [], _, durable, _ => (durable, true)
  | s :: rest, k, durable, draft =>
    if fails k then (durable, false)
    else
      let draft' := applyStmt now draft s
      let durable' := match s with
        | Stmt.commit => draft'
        | _ => durable
      runTxn now fails rest (k + 1) durable' draft'

/-- The webhook ingestion call: run the batch script as one transaction
against the durable store. -/
def receive_metrics (now : Int) (fails : Nat → Bool) (db : Db) (p : WebhookPayload) :
    Db × Bool :=
  runTxn now fails (ingestScript p) 0 db db

/-- Two rows whose distinct raw names decode to one and the same
`(entity, attribute)` pair: `"a_value"` and `"a"` both decode to
`("a", "value")`. -/
def c2row1 : MetricRow := ⟨1, "s1", 10, "disk", "a_value", 1, none⟩

/-- The colliding second row, older than `c2row1` but first in name order. -/
def c2row2 : MetricRow := ⟨2, "s1", 5, "disk", "a", 2, none⟩

/-- Metric log of the projection counterexample. -/
def c2db : List MetricRow := [c2row1, c2row2]

/-- Two same-name distinct-timestamp rows for the projection witness. -/
def c2wRow1 : MetricRow := ⟨1, "s", 10, "disk", "d0_temperature", 30, none⟩

/-- The newer of the two witness rows. -/
def c2wRow2 : MetricRow := ⟨2, "s", 20, "disk", "d0_temperature", 35, none⟩

/-- Metric log of the projection witness. -/
def c2wDb : List MetricRow := [c2wRow1, c2wRow2]

/-- System `"a"` with metric `"b_c_temperature"`: composite summary key
`"a_b_c_temperature"`. -/
def c3row1 : MetricRow := ⟨1, "a", 50, "disk", "b_c_temperature", 50, none⟩

/-- System `"a_b"` with metric `"c_temperature"`: the SAME composite key
`"a_b_c_temperature"`. -/
def c3row2 : MetricRow := ⟨2, "a_b", 50, "disk", "c_temperature", 50, none⟩

/-- Metric log of the fleet-summary counterexample. -/
def c3db : List MetricRow := [c3row1, c3row2]

/-- Single-row log for the fleet-summary witness. -/
def c3wDb : List MetricRow := [⟨1, "s", 50, "disk", "ada0_temperature", 50, none⟩]

/-- A row sitting exactly on the window boundary for `now = 100`,
`hours = 24`. -/
def c4row : MetricRow := ⟨1, "s", 100 - 24 * 3600, "pool", "x", 0, none⟩

/-- A row strictly inside the window. -/
def c4rowIn : MetricRow := ⟨2, "s", 50, "disk", "x_temperature", 40, none⟩

/-- Metric log of the window-boundary theorems. -/
def c4db : List MetricRow := [c4row, c4rowIn]

/-- Two disks whose names share the first-underscore token `"a"`. -/
def c5row1 : MetricRow := ⟨1, "s", 50, "disk", "a_x_temperature", 50, none⟩

/-- The second disk of the shared token. -/
def c5row2 : MetricRow := ⟨2, "s", 50, "disk", "a_y_temperature", 50, none⟩

/-- Metric log on which `healthy_disks` goes negative. -/
def c5db : List MetricRow := [c5row1, c5row2]

/-- An unacknowledged alert for the state-machine witnesses. -/
def c8a0 : Alert := ⟨1, "s", 0, "warning", "m", false, none⟩

/-- The same alert once acknowledged. -/
def c8a1 : Alert := ⟨1, "s", 0, "warning", "m", true, none⟩

/-- The empty durable store. -/
def db0 : Db := ⟨[], [], [], 1, 1⟩

/-- Payload registering system `"A"` while its one metric fact carries
`system_id = "B"`. -/
def c10payload : WebhookPayload :=
  ⟨⟨"A", "n", none, none, none⟩, [⟨"B", "disk", "x", 1, none⟩], []⟩

/-- The system row the `c10payload` upsert produces at time 5. -/
def c10sysRow : SystemRow := ⟨"A", "n", none, none, 5, none⟩

/-- Failure oracle that errors on the second statement of a batch (the first
metric insert). -/
def c9fails : Nat → Bool := fun k => decide (k = 1)

theorem rsplitOnce_of_not_mem : ∀ s : List Char, '_' ∉ s → rsplitOnce s = none := by
  intro s h
  induction s with
  | nil => rfl
  | cons c cs ih =>
    have hc : c ≠ '_' := fun hc => h (hc ▸ List.mem_cons_self c cs)
    have hcs : '_' ∉ cs := fun hm => h (List.mem_cons_of_mem c hm)
    simp [rsplitOnce, ih hcs, hc]

theorem rsplitOnce_append : ∀ l r : List Char, '_' ∉ r →
    rsplitOnce (l ++ '_' :: r) = some (l, r) := by
  intro l r h
  induction l with
  | nil => simp [rsplitOnce, rsplitOnce_of_not_mem r h]
  | cons c cs ih => simp [rsplitOnce, ih]

theorem lsplitOnce_of_not_mem : ∀ s : List Char, '_' ∉ s → lsplitOnce s = none := by
  intro s h
  induction s with
  | nil => rfl
  | cons c cs ih =>
    have hc : c ≠ '_' := fun hc => h (hc ▸ List.mem_cons_self c cs)
    have hcs : '_' ∉ cs := fun hm => h (List.mem_cons_of_mem c hm)
    simp [lsplitOnce, ih hcs, hc]

theorem lsplitOnce_append : ∀ l r : List Char, '_' ∉ l →
    lsplitOnce (l ++ '_' :: r) = some (l, r) := by
  intro l r h
  induction l with
  | nil => simp [lsplitOnce]
  | cons c cs ih =>
    have hc : c ≠ '_' := fun hc => h (hc ▸ List.mem_cons_self c cs)
    have hcs : '_' ∉ cs := fun hm => h (List.mem_cons_of_mem c hm)
    simp [lsplitOnce, hc, ih hcs]

/-- Claim C1: for disk and replication metric names, decoding splits at the
LAST underscore — the part before it is the entity id, the part after it the
attribute — so `"ada0_smart_status"` decodes to `("ada0_smart", "status")`;
a name with no underscore decodes to the whole name with the sentinel
attribute `"value"`. -/
theorem claim_C1_rightmost_split :
    (∀ l r : List Char, '_' ∉ r →
        splitDiskName ⟨l ++ '_' :: r⟩ = (⟨l⟩, ⟨r⟩) ∧
        splitTaskName ⟨l ++ '_' :: r⟩ = (⟨l⟩, ⟨r⟩)) ∧
    (∀ s : List Char, '_' ∉ s →
        splitDiskName ⟨s⟩ = (⟨s⟩, "value") ∧ splitTaskName ⟨s⟩ = (⟨s⟩, "value")) ∧
    splitDiskName "ada0_smart_status" = ("ada0_smart", "status") ∧
    splitTaskName "ada0_smart_status" = ("ada0_smart", "status") := by
  refine ⟨fun l r h => ?_, fun s h => ?_, by decide, by decide⟩
  · constructor <;> simp [splitDiskName, splitTaskName, rsplitOnce_append l r h]
  · constructor <;> simp [splitDiskName, splitTaskName, rsplitOnce_of_not_mem s h]

/-- Witness for C1 at the concrete names `"ada0_temperature"` (one underscore)
and `"uptime"` (no underscore). -/
theorem claim_C1_witness :
    splitDiskName ⟨"ada0".data ++ '_' :: "temperature".data⟩ =
      (⟨"ada0".data⟩, ⟨"temperature".data⟩) ∧
    splitTaskName ⟨"uptime".data⟩ = (⟨"uptime".data⟩, "value") :=
  ⟨(claim_C1_rightmost_split.1 "ada0".data "temperature".data (by decide)).1,
   (claim_C1_rightmost_split.2.1 "uptime".data (by decide)).2⟩

/-- Claim C6: for pool and pool_health metric names, decoding splits at the
FIRST underscore — the pool name before it, the whole remainder (further
underscores included) as the attribute — so `"tank_scrub_status"` decodes to
`("tank", "scrub_status")`; the per-system pool view and the cross-fleet pool
view apply one and the same split. -/
theorem claim_C6_leftmost_split :
    (∀ l r : List Char, '_' ∉ l →
        splitPoolNameSystem ⟨l ++ '_' :: r⟩ = (⟨l⟩, ⟨r⟩) ∧
        splitPoolNameAll ⟨l ++ '_' :: r⟩ = (⟨l⟩, ⟨r⟩)) ∧
    (∀ s : List Char, '_' ∉ s →
        splitPoolNameSystem ⟨s⟩ = (⟨s⟩, "value") ∧ splitPoolNameAll ⟨s⟩ = (⟨s⟩, "value")) ∧
    (∀ n : String, splitPoolNameSystem n = splitPoolNameAll n) ∧
    splitPoolNameSystem "tank_scrub_status" = ("tank", "scrub_status") := by
  refine ⟨fun l r h => ?_, fun s h => ?_, fun n => rfl, by decide⟩
  · constructor <;> simp [splitPoolNameSystem, splitPoolNameAll, lsplitOnce_append l r h]
  · constructor <;> simp [splitPoolNameSystem, splitPoolNameAll, lsplitOnce_of_not_mem s h]

/-- Witness for C6 at the concrete names `"tank_used"` and `"backup"`. -/
theorem claim_C6_witness :
    splitPoolNameSystem ⟨"tank".data ++ '_' :: "used".data⟩ =
      (⟨"tank".data⟩, ⟨"used".data⟩) ∧
    splitPoolNameAll ⟨"backup".data⟩ = (⟨"backup".data⟩, "value") :=
  ⟨(claim_C6_leftmost_split.1 "tank".data "used".data (by decide)).1,
   (claim_C6_leftmost_split.2.1 "backup".data (by decide)).2⟩

/-- Claim C4 (amended): the windowed queries use the STRICT condition
`timestamp > datetime('now', '-hours hours')`, so a point at exactly
`now - window` is excluded, a strictly older point is excluded, and a point
strictly newer than the cutoff (matching the other filters) is included. -/
theorem claim_C4_window_boundary :
    ∀ (db : List MetricRow) (sid : String) (now hours : Int) (m : MetricRow),
      (m.timestamp ≤ now - hours * 3600 →
        m ∉ systemMetricsQuery db sid now hours none ∧ m ∉ diskWindowRows db sid now hours) ∧
      (m ∈ db → m.system_id = sid → now - hours * 3600 < m.timestamp →
        m ∈ systemMetricsQuery db sid now hours none) ∧
      (m ∈ db → m.system_id = sid → m.metric_type = "disk" →
        now - hours * 3600 < m.timestamp → m ∈ diskWindowRows db sid now hours) := by
  intro db sid now hours m
  refine ⟨fun hle => ⟨fun hmem => ?_, fun hmem => ?_⟩, fun h1 h2 h3 => ?_, fun h1 h2 h3 h4 => ?_⟩
  · rw [systemMetricsQuery, List.mem_filter] at hmem
    simp only [Bool.and_eq_true, decide_eq_true_eq] at hmem
    omega
  · rw [diskWindowRows, List.mem_filter] at hmem
    simp only [Bool.and_eq_true, decide_eq_true_eq] at hmem
    omega
  · rw [systemMetricsQuery, List.mem_filter]
    simp only [Bool.and_eq_true, decide_eq_true_eq]
    tauto
  · rw [diskWindowRows, List.mem_filter]
    simp only [Bool.and_eq_true, decide_eq_true_eq]
    tauto

/-- Counterexample to C4 as stated: the row sitting exactly at
`now - window` (`now = 100`, 24-hour window) is NOT in the query result,
though the claim requires it to be included. -/
theorem claim_C4_counterexample :
    c4row ∈ c4db ∧ c4row.system_id = "s" ∧ c4row.timestamp = 100 - 24 * 3600 ∧
    c4row ∉ systemMetricsQuery c4db "s" 100 24 none := by
  decide

/-- Witness for C4 at a concrete log: the strictly-inside row is
included, the boundary row is excluded. -/
theorem claim_C4_witness :
    c4rowIn ∈ diskWindowRows c4db "s" 100 24 ∧ c4row ∉ diskWindowRows c4db "s" 100 24 :=
  ⟨(claim_C4_window_boundary c4db "s" 100 24 c4rowIn).2.2 (by decide) (by decide) (by decide)
      (by decide),
   ((claim_C4_window_boundary c4db "s" 100 24 c4row).1 (by decide)).2⟩

theorem distinct_count_mono (db : List MetricRow) (p q : MetricRow → Bool)
    (f : MetricRow → String) (himp : ∀ m, p m = true → q m = true) :
    ((db.filter p).map f).dedup.length ≤ ((db.filter q).map f).dedup.length := by
  rw [← List.card_toFinset, ← List.card_toFinset]
  apply Finset.card_le_card
  intro x hx
  simp only [List.mem_toFinset, List.mem_map, List.mem_filter] at hx ⊢
  obtain ⟨m, ⟨hm, hpm⟩, hfm⟩ := hx
  exact ⟨m, ⟨hm, himp m hpm⟩, hfm⟩

/-- Claim C5 (amended): the replication and pool summaries clamp the healthy
count at zero, so those two are never negative; the critical temperature
counter counts a subset of the warning counter (value > 55 implies
value > 45), so subtracting the warning counter once avoids double
subtraction.  The disk summary, however, computes `healthy_disks` WITHOUT the
clamp (see the counterexample, where it is negative). -/
theorem claim_C5_healthy_counts :
    ∀ (db : List MetricRow) (now : Int),
      tempCritical db now ≤ fleetTempWarnings db now ∧
      0 ≤ healthyTasks db now ∧ 0 ≤ healthyPools db now := by
  intro db now
  refine ⟨?_, ?_, ?_⟩
  · apply distinct_count_mono
    intro m hm
    rw [tempCritPred] at hm
    rw [tempWarnPred]
    simp only [Bool.and_eq_true, decide_eq_true_eq] at hm ⊢
    exact ⟨⟨⟨hm.1.1.1, hm.1.1.2⟩, by omega⟩, hm.2⟩
  · rw [healthyTasks]
    split <;> omega
  · rw [healthyPools]
    split <;> omega

/-- Counterexample to C5 as stated: with two disks whose raw names share
their first-underscore token, `total_disks` is 1 while `temp_warnings` is 2,
and the unclamped `healthy_disks` of the disk summary is -1 — negative,
which the claim rules out. -/
theorem claim_C5_counterexample :
    healthyDisks c5db 100 = -1 ∧ healthyDisks c5db 100 < 0 := by
  constructor <;> decide

theorem string_append_cancel_left {a b c : String} (h : a ++ b = a ++ c) : b = c := by
  apply String.ext
  have hd : a.data ++ b.data = a.data ++ c.data := congrArg String.data h
  exact List.append_cancel_left hd

theorem keyOfPair_inj_of_fst_eq {p q : String × String} (hfst : p.1 = q.1)
    (h : keyOfPair p = keyOfPair q) : p = q := by
  obtain ⟨s, n⟩ := p
  obtain ⟨s', n'⟩ := q
  dsimp at hfst
  subst hfst
  rw [keyOfPair, keyOfPair] at h
  exact Prod.ext rfl (string_append_cancel_left h)

theorem map_warnKey_toFinset (l : List MetricRow) :
    (l.map warnKey).toFinset = (l.map warnPair).toFinset.image keyOfPair := by
  ext x
  simp only [List.mem_toFinset, List.mem_map, Finset.mem_image]
  constructor
  · rintro ⟨m, hm, rfl⟩
    exact ⟨warnPair m, ⟨m, hm, rfl⟩, rfl⟩
  · rintro ⟨p, ⟨m, hm, rfl⟩, rfl⟩
    exact ⟨m, hm, rfl⟩

/-- Claim C3 (amended): the fleet-wide disk temperature-warning counter equals
the sum over the fleet's systems of the identical per-system counting rule
(same window and threshold) PROVIDED the composite keys
`system_id || '_' || metric_name` do not collide across distinct
(system, name) pairs — in particular whenever no system id contains an
underscore.  Without that proviso the concatenation can merge keys of
different systems and the fleet count undercounts the sum (see the
counterexample). -/
theorem claim_C3_fleet_sum :
    ∀ (db : List MetricRow) (now : Int),
      (∀ m ∈ db, ∀ m' ∈ db, tempWarnPred now m = true → tempWarnPred now m' = true →
          warnKey m = warnKey m' →
          m.system_id = m'.system_id ∧ m.metric_name = m'.metric_name) →
      fleetTempWarnings db now = sumPerSystemTempWarnings db now := by
  intro db now hinj
  have hpairmem : ∀ p, p ∈ ((db.filter (tempWarnPred now)).map warnPair).toFinset ↔
      ∃ m ∈ db, tempWarnPred now m = true ∧ warnPair m = p := by
    intro p
    simp only [List.mem_toFinset, List.mem_map, List.mem_filter]
    constructor
    · rintro ⟨m, ⟨hm, hp⟩, rfl⟩
      exact ⟨m, hm, hp, rfl⟩
    · rintro ⟨m, hm, hp, rfl⟩
      exact ⟨m, ⟨hm, hp⟩, rfl⟩
  have hinjOn : Set.InjOn keyOfPair ↑((db.filter (tempWarnPred now)).map warnPair).toFinset := by
    intro p hp q hq hkey
    rw [Finset.mem_coe, hpairmem] at hp hq
    obtain ⟨m, hm, hpm, rfl⟩ := hp
    obtain ⟨m', hm', hpm', rfl⟩ := hq
    have := hinj m hm m' hm' hpm hpm' hkey
    exact Prod.ext this.1 this.2
  have hfleet : fleetTempWarnings db now =
      ((db.filter (tempWarnPred now)).map warnPair).toFinset.card := by
    rw [fleetTempWarnings, ← List.card_toFinset, map_warnKey_toFinset,
      Finset.card_image_of_injOn hinjOn]
  have hfiber : ((db.filter (tempWarnPred now)).map warnPair).toFinset.card =
      ∑ s ∈ warnSystemIds db now,
        (((db.filter (tempWarnPred now)).map warnPair).toFinset.filter
          (fun p => p.1 = s)).card := by
    apply Finset.card_eq_sum_card_fiberwise
    intro p hp
    rw [hpairmem] at hp
    obtain ⟨m, hm, hpm, rfl⟩ := hp
    rw [warnSystemIds, List.mem_toFinset, List.mem_map]
    exact ⟨m, List.mem_filter.mpr ⟨hm, hpm⟩, rfl⟩
  have hper : ∀ s, perSystemTempWarnings db now s =
      (((db.filter (tempWarnPred now)).map warnPair).toFinset.filter
        (fun p => p.1 = s)).card := by
    intro s
    have hseteq : ((db.filter fun m => tempWarnPred now m && decide (m.system_id = s)).map
        warnPair).toFinset =
        ((db.filter (tempWarnPred now)).map warnPair).toFinset.filter (fun p => p.1 = s) := by
      ext p
      rw [Finset.mem_filter, hpairmem]
      simp only [List.mem_toFinset, List.mem_map, List.mem_filter, Bool.and_eq_true,
        decide_eq_true_eq]
      constructor
      · rintro ⟨m, ⟨hm, hpm, hsid⟩, rfl⟩
        exact ⟨⟨m, hm, hpm, rfl⟩, hsid⟩
      · rintro ⟨⟨m, hm, hpm, rfl⟩, hsid⟩
        exact ⟨m, ⟨hm, hpm, hsid⟩, rfl⟩
    have hfibinj : Set.InjOn keyOfPair
        ↑((db.filter fun m => tempWarnPred now m && decide (m.system_id = s)).map
            warnPair).toFinset := by
      intro p hp q hq hkey
      rw [Finset.mem_coe, hseteq, Finset.mem_filter] at hp hq
      exact keyOfPair_inj_of_fst_eq (hp.2.trans hq.2.symm) hkey
    rw [perSystemTempWarnings, ← List.card_toFinset, map_warnKey_toFinset,
      Finset.card_image_of_injOn hfibinj, hseteq]
  rw [hfleet, hfiber, sumPerSystemTempWarnings]
  exact Finset.sum_congr rfl fun s _ => (hper s).symm

/-- Counterexample to C3 as stated: system `"a"` with warning metric
`"b_c_temperature"` and system `"a_b"` with warning metric `"c_temperature"`
produce one and the same composite key `"a_b_c_temperature"`, so the fleet
counter reports 1 while the per-system classifications sum to 2. -/
theorem claim_C3_counterexample :
    fleetTempWarnings c3db 100 = 1 ∧ sumPerSystemTempWarnings c3db 100 = 2 ∧
    fleetTempWarnings c3db 100 ≠ sumPerSystemTempWarnings c3db 100 := by
  refine ⟨by decide, by decide, by decide⟩

/-- Witness for C3 at a concrete collision-free log. -/
theorem claim_C3_witness :
    fleetTempWarnings c3wDb 100 = sumPerSystemTempWarnings c3wDb 100 :=
  claim_C3_fleet_sum c3wDb 100 (by decide)

theorem ackUpdate_id (aid : Nat) (a : Alert) : (ackUpdate aid a).id = a.id := by
  rw [ackUpdate]
  split <;> rfl

theorem ackUpdate_ack_mono (aid : Nat) (a : Alert) (h : a.acknowledged = true) :
    (ackUpdate aid a).acknowledged = true := by
  rw [ackUpdate]
  split <;> simp [h]

theorem ackUpdate_idem (aid : Nat) (a : Alert) :
    ackUpdate aid (ackUpdate aid a) = ackUpdate aid a := by
  simp only [ackUpdate]
  split <;> simp_all

theorem ticketUpdate_id (tid : String) (aid : Nat) (a : Alert) :
    (ticketUpdate tid aid a).id = a.id := by
  rw [ticketUpdate]
  split <;> rfl

theorem ticketUpdate_ack_mono (tid : String) (aid : Nat) (a : Alert)
    (h : a.acknowledged = true) : (ticketUpdate tid aid a).acknowledged = true := by
  rw [ticketUpdate]
  split <;> simp [h]

/-- Claim C7 (amended): on an alert id absent from the store,
`acknowledge_alert` fails with NotFound and leaves the store unchanged,
while `create_ticket` performs NO existence check: it succeeds, returns the
mock ticket id, and leaves the store unchanged. -/
theorem claim_C7_unknown_alert :
    ∀ (db : List Alert) (aid : Nat), (∀ a ∈ db, a.id ≠ aid) →
      acknowledge_alert db aid = Except.error ApiError.notFound ∧
      ∀ psa, create_ticket db aid psa = Except.ok (db, mock_ticket_id psa aid) := by
  intro db aid h
  constructor
  · rw [acknowledge_alert]
    have hnil : db.filter (fun a => decide (a.id = aid)) = [] := by
      rw [List.filter_eq_nil_iff]
      intro a ha
      simp [h a ha]
    simp [hnil]
  · intro psa
    rw [create_ticket]
    have hmap : db.map (ticketUpdate (mock_ticket_id psa aid) aid) = db := by
      conv_rhs => rw [← List.map_id db]
      apply List.map_congr_left
      intro a ha
      rw [ticketUpdate]
      simp [h a ha]
    rw [hmap]

/-- Counterexample to C7 as stated: creating a ticket for alert id 1 on an
EMPTY alert store does not fail with NotFound — it succeeds with the mock
ticket id. -/
theorem claim_C7_counterexample :
    create_ticket ([] : List Alert) 1 "halo" = Except.ok ([], "HALO-1-001") := rfl

/-- Witness for C7 at the empty store and alert id 1. -/
theorem claim_C7_witness :
    acknowledge_alert ([] : List Alert) 1 = Except.error ApiError.notFound ∧
    create_ticket ([] : List Alert) 1 "hudu" = Except.ok ([], mock_ticket_id "hudu" 1) :=
  ⟨(claim_C7_unknown_alert [] 1 (by simp)).1,
   (claim_C7_unknown_alert [] 1 (by simp)).2 "hudu"⟩

theorem applyAlertOp_ack_mono (op : AlertOp) (db : List Alert) (i : Nat) (a : Alert)
    (ha : db[i]? = some a) (hack : a.acknowledged = true) :
    ∃ b, (applyAlertOp db op)[i]? = some b ∧ b.acknowledged = true := by
  cases op with
  | ack aid =>
    by_cases hc : (db.filter fun x => decide (x.id = aid)).length = 0
    · have hlist : applyAlertOp db (AlertOp.ack aid) = db := by
        simp [applyAlertOp, acknowledge_alert, hc]
      exact ⟨a, by rw [hlist]; exact ha, hack⟩
    · have hlist : applyAlertOp db (AlertOp.ack aid) = db.map (ackUpdate aid) := by
        simp [applyAlertOp, acknowledge_alert, hc]
      refine ⟨ackUpdate aid a, ?_, ackUpdate_ack_mono aid a hack⟩
      rw [hlist, List.getElem?_map, ha]
      rfl
  | ticket aid psa =>
    have hlist : applyAlertOp db (AlertOp.ticket aid psa) =
        db.map (ticketUpdate (mock_ticket_id psa aid) aid) := by
      simp [applyAlertOp, create_ticket]
    refine ⟨ticketUpdate (mock_ticket_id psa aid) aid a, ?_, ticketUpdate_ack_mono _ aid a hack⟩
    rw [hlist, List.getElem?_map, ha]
    rfl
  | ins sid sev msg ts =>
    have hlen : i < db.length := (List.getElem?_eq_some.mp ha).1
    refine ⟨a, ?_, hack⟩
    simp only [applyAlertOp]
    rw [List.getElem?_append_left hlen]
    exact ha

theorem runAlertOps_ack_mono : ∀ (ops : List AlertOp) (db : List Alert) (i : Nat) (a : Alert),
    db[i]? = some a → a.acknowledged = true →
    ∃ b, (runAlertOps db ops)[i]? = some b ∧ b.acknowledged = true := by
  intro ops
  induction ops with
  | nil =>
    intro db i a ha hack
    exact ⟨a, ha, hack⟩
  | cons op ops ih =>
    intro db i a ha hack
    obtain ⟨b, hb, hbk⟩ := applyAlertOp_ack_mono op db i a ha hack
    exact ih (applyAlertOp db op) i b hb hbk

/-- Claim C8: the acknowledged flag is monotonic.  A successful acknowledge
sets the flag on the target alert and re-acknowledging is an idempotent no-op
(success, same store); create_ticket sets the ticket id and forces the flag to
true; and across any sequence of alert-store operations (acknowledge,
create_ticket, ingestion insert) no alert ever goes from acknowledged back to
unacknowledged. -/
theorem claim_C8_ack_monotonic :
    (∀ (db : List Alert) (aid : Nat) (db' : List Alert),
        acknowledge_alert db aid = Except.ok db' →
        (∀ a ∈ db', a.id = aid → a.acknowledged = true) ∧
        acknowledge_alert db' aid = Except.ok db') ∧
    (∀ (db : List Alert) (aid : Nat) (psa : String) (db' : List Alert) (tid : String),
        create_ticket db aid psa = Except.ok (db', tid) →
        ∀ a ∈ db', a.id = aid → a.acknowledged = true ∧ a.ticket_id = some tid) ∧
    (∀ (ops : List AlertOp) (db : List Alert) (i : Nat) (a : Alert),
        db[i]? = some a → a.acknowledged = true →
        ∃ b, (runAlertOps db ops)[i]? = some b ∧ b.acknowledged = true) := by
  refine ⟨?_, ?_, runAlertOps_ack_mono⟩
  · intro db aid db' hok
    rw [acknowledge_alert] at hok
    by_cases hc : (db.filter fun a => decide (a.id = aid)).length = 0
    · simp [hc] at hok
    · rw [if_neg hc] at hok
      have hmapeq : db.map (ackUpdate aid) = db' := by
        injection hok
      constructor
      · intro a ha haid
        rw [← hmapeq] at ha
        obtain ⟨b, hb, rfl⟩ := List.mem_map.mp ha
        by_cases hid : b.id = aid
        · simp [ackUpdate, hid]
        · exact absurd ((ackUpdate_id aid b) ▸ haid) hid
      · rw [acknowledge_alert, ← hmapeq]
        have hfilter : ((db.map (ackUpdate aid)).filter fun a => decide (a.id = aid)).length =
            (db.filter fun a => decide (a.id = aid)).length := by
          rw [List.filter_map, List.length_map]
          congr 1
          apply List.filter_congr
          intro a ha
          simp [Function.comp, ackUpdate_id]
        rw [hfilter, if_neg hc, List.map_map]
        have hidem : db.map (ackUpdate aid ∘ ackUpdate aid) = db.map (ackUpdate aid) := by
          apply List.map_congr_left
          intro a ha
          exact ackUpdate_idem aid a
        rw [hidem]
  · intro db aid psa db' tid hok
    rw [create_ticket] at hok
    have hpair : (db.map (ticketUpdate (mock_ticket_id psa aid) aid), mock_ticket_id psa aid) =
        (db', tid) := by
      injection hok
    have hmapeq : db.map (ticketUpdate (mock_ticket_id psa aid) aid) = db' :=
      congrArg Prod.fst hpair
    have htid : mock_ticket_id psa aid = tid := congrArg Prod.snd hpair
    intro a ha haid
    rw [← hmapeq] at ha
    obtain ⟨b, hb, rfl⟩ := List.mem_map.mp ha
    by_cases hid : b.id = aid
    · rw [← htid]
      simp [ticketUpdate, hid]
    · exact absurd ((ticketUpdate_id _ aid b) ▸ haid) hid

/-- Witness for C8: acknowledging the already-acknowledged alert store
`[c8a1]` succeeds and leaves it unchanged (the idempotent no-op), obtained by
applying the claim theorem to the concrete first acknowledge. -/
theorem claim_C8_witness :
    acknowledge_alert [c8a1] 1 = Except.ok [c8a1] :=
  (claim_C8_ack_monotonic.1 [c8a0] 1 [c8a1] rfl).2

theorem runTxn_commit_last (now : Int) (fails : Nat → Bool) :
    ∀ (stmts : List Stmt), (∀ s ∈ stmts, s ≠ Stmt.commit) →
    ∀ (k : Nat) (durable draft : Db),
      ((runTxn now fails (stmts ++ [Stmt.commit]) k durable draft).2 = false →
        (runTxn now fails (stmts ++ [Stmt.commit]) k durable draft).1 = durable) ∧
      ((runTxn now fails (stmts ++ [Stmt.commit]) k durable draft).2 = true →
        (runTxn now fails (stmts ++ [Stmt.commit]) k durable draft).1 =
          stmts.foldl (applyStmt now) draft) ∧
      ((∀ j, fails j = false) →
        (runTxn now fails (stmts ++ [Stmt.commit]) k durable draft).2 = true) := by
  intro stmts
  induction stmts with
  | nil =>
    intro hnc k durable draft
    by_cases hf : fails k = true
    · refine ⟨by simp [runTxn, hf], by simp [runTxn, hf], fun hall => ?_⟩
      exact absurd hf (by simp [hall k])
    · rw [Bool.not_eq_true] at hf
      simp [runTxn, hf, applyStmt]
  | cons s ss ih =>
    intro hnc k durable draft
    have hs : s ≠ Stmt.commit := hnc s (List.mem_cons_self s _)
    have hss : ∀ t ∈ ss, t ≠ Stmt.commit := fun t ht => hnc t (List.mem_cons_of_mem s ht)
    rw [List.cons_append]
    by_cases hf : fails k = true
    · refine ⟨by simp [runTxn, hf], by simp [runTxn, hf], fun hall => ?_⟩
      exact absurd hf (by simp [hall k])
    · rw [Bool.not_eq_true] at hf
      cases s with
      | commit => exact absurd rfl hs
      | upsert s0 =>
        simp only [runTxn, hf, Bool.false_eq_true, if_false]
        exact ih hss (k + 1) durable (applyStmt now draft (Stmt.upsert s0))
      | metric f =>
        simp only [runTxn, hf, Bool.false_eq_true, if_false]
        exact ih hss (k + 1) durable (applyStmt now draft (Stmt.metric f))
      | alert f =>
        simp only [runTxn, hf, Bool.false_eq_true, if_false]
        exact ih hss (k + 1) durable (applyStmt now draft (Stmt.alert f))

theorem ingestScript_split (p : WebhookPayload) :
    ingestScript p =
      (Stmt.upsert p.system :: (p.metrics.map Stmt.metric ++ p.alerts.map Stmt.alert)) ++
        [Stmt.commit] := by
  rw [ingestScript]
  simp [List.append_assoc]

theorem ingestScript_body_no_commit (p : WebhookPayload) :
    ∀ s ∈ Stmt.upsert p.system :: (p.metrics.map Stmt.metric ++ p.alerts.map Stmt.alert),
      s ≠ Stmt.commit := by
  intro s hs
  rcases List.mem_cons.mp hs with h | h
  · subst h
    simp
  · rcases List.mem_append.mp h with h2 | h2 <;>
      obtain ⟨f, hf, rfl⟩ := List.mem_map.mp h2 <;> simp

/-- Claim C9: every ingestion batch is atomic under transaction semantics —
the script commits exactly once, at its very end, so a failure at ANY
statement leaves the durable store (system upsert, `last_seen`, metric rows,
alert rows alike) exactly as it was, while a fully successful run records the
whole batch. -/
theorem claim_C9_atomic_batch :
    ∀ (now : Int) (fails : Nat → Bool) (db : Db) (p : WebhookPayload),
      ((receive_metrics now fails db p).2 = false → (receive_metrics now fails db p).1 = db) ∧
      ((receive_metrics now fails db p).2 = true →
        (receive_metrics now fails db p).1 =
          (Stmt.upsert p.system ::
            (p.metrics.map Stmt.metric ++ p.alerts.map Stmt.alert)).foldl (applyStmt now) db) ∧
      ((∀ j, fails j = false) → (receive_metrics now fails db p).2 = true) := by
  intro now fails db p
  have h := runTxn_commit_last now fails _ (ingestScript_body_no_commit p) 0 db db
  rw [receive_metrics, ingestScript_split]
  exact h

/-- Witness for C9: with the oracle failing at statement index 1 (the first
metric insert of the batch), ingestion of `c10payload` into the empty store
reports failure and the durable store is unchanged. -/
theorem claim_C9_witness :
    (receive_metrics 0 c9fails db0 c10payload).1 = db0 ∧
    (receive_metrics 0 c9fails db0 c10payload).2 = false :=
  ⟨(claim_C9_atomic_batch 0 c9fails db0 c10payload).1 rfl, rfl⟩

theorem metricFold_metrics (now : Int) :
    ∀ (ms : List MetricFact) (db : Db),
      ((ms.map Stmt.metric).foldl (applyStmt now) db).metrics.map (fun m => m.system_id) =
        db.metrics.map (fun m => m.system_id) ++ ms.map (fun f => f.system_id) ∧
      ((ms.map Stmt.metric).foldl (applyStmt now) db).systems = db.systems := by
  intro ms
  induction ms with
  | nil => intro db; simp
  | cons f ms ih =>
    intro db
    have h := ih (insertMetricRow now f db)
    constructor
    · rw [List.map_cons, List.foldl_cons]
      rw [show applyStmt now db (Stmt.metric f) = insertMetricRow now f db from rfl]
      rw [h.1]
      simp [insertMetricRow]
    · rw [List.map_cons, List.foldl_cons]
      rw [show applyStmt now db (Stmt.metric f) = insertMetricRow now f db from rfl]
      rw [h.2]
      rfl

theorem alertFold_keeps (now : Int) :
    ∀ (as : List AlertFact) (db : Db),
      ((as.map Stmt.alert).foldl (applyStmt now) db).metrics = db.metrics ∧
      ((as.map Stmt.alert).foldl (applyStmt now) db).systems = db.systems := by
  intro as
  induction as with
  | nil => intro db; simp
  | cons f as ih =>
    intro db
    have h := ih (insertAlertRow now f db)
    constructor
    · rw [List.map_cons, List.foldl_cons]
      rw [show applyStmt now db (Stmt.alert f) = insertAlertRow now f db from rfl]
      rw [h.1]
      rfl
    · rw [List.map_cons, List.foldl_cons]
      rw [show applyStmt now db (Stmt.alert f) = insertAlertRow now f db from rfl]
      rw [h.2]
      rfl

theorem upsertSystem_metrics (now : Int) (s : SystemInfo) (db : Db) :
    (upsertSystem now s db).metrics = db.metrics := by
  rw [upsertSystem]
  split <;> rfl

theorem upsertSystem_last_seen (now : Int) (s : SystemInfo) (db : Db) :
    (∀ r ∈ (upsertSystem now s db).systems, r.id = s.id → r.last_seen = now) ∧
    (∃ r ∈ (upsertSystem now s db).systems, r.id = s.id) := by
  rw [upsertSystem]
  by_cases hc : (db.systems.filter fun r => decide (r.id = s.id)).length = 0
  · rw [if_pos hc]
    have hnone : ∀ r ∈ db.systems, r.id ≠ s.id := by
      intro r hr
      have := List.filter_eq_nil_iff.mp (List.length_eq_zero.mp hc) r hr
      simpa using this
    constructor
    · intro r hr hid
      rcases List.mem_append.mp hr with h | h
      · exact absurd hid (hnone r h)
      · rcases List.mem_singleton.mp h with rfl
        rfl
    · exact ⟨⟨s.id, s.name, s.hostname, s.version, now, s.client_name⟩,
        List.mem_append_right _ (List.mem_singleton.mpr rfl), rfl⟩
  · rw [if_neg hc]
    have hexists : ∃ r ∈ db.systems, r.id = s.id := by
      have hne : db.systems.filter (fun r => decide (r.id = s.id)) ≠ [] := by
        intro h0
        exact hc (by rw [h0]; rfl)
      obtain ⟨r, hr⟩ := List.exists_mem_of_ne_nil _ hne
      have hmem := List.mem_filter.mp hr
      exact ⟨r, hmem.1, by simpa using hmem.2⟩
    constructor
    · intro r hr hid
      obtain ⟨b, hb, rfl⟩ := List.mem_map.mp hr
      by_cases hidb : b.id = s.id
      · simp [hidb]
      · rw [if_neg hidb] at hid ⊢
        exact absurd hid hidb
    · obtain ⟨b, hb, hidb⟩ := hexists
      exact ⟨⟨s.id, s.name, s.hostname, s.version, now, s.client_name⟩,
        List.mem_map.mpr ⟨b, hb, by rw [if_pos hidb]⟩, rfl⟩

/-- Claim C10: on a fully successful ingestion, every accepted metric row is
stored under the `system_id` carried by the metric fact itself (the appended
system-id column is exactly the facts' own ids, in order), while the system
upsert targets `payload.system.id` and advances its `last_seen` to the
ingestion time; no check ties the two together, so the batch succeeds even
when they differ (see the witness, where system "A" is upserted while the
metric row lands under the never-registered id "B"). -/
theorem claim_C10_metric_under_fact_system :
    ∀ (now : Int) (db : Db) (p : WebhookPayload),
      (receive_metrics now (fun _ => false) db p).2 = true ∧
      ((receive_metrics now (fun _ => false) db p).1).metrics.map (fun m => m.system_id) =
        db.metrics.map (fun m => m.system_id) ++ p.metrics.map (fun f => f.system_id) ∧
      (∀ r ∈ ((receive_metrics now (fun _ => false) db p).1).systems,
          r.id = p.system.id → r.last_seen = now) ∧
      (∃ r ∈ ((receive_metrics now (fun _ => false) db p).1).systems, r.id = p.system.id) := by
  intro now db p
  have h := runTxn_commit_last now (fun _ => false) _ (ingestScript_body_no_commit p) 0 db db
  have hflag : (receive_metrics now (fun _ => false) db p).2 = true := by
    rw [receive_metrics, ingestScript_split]
    exact h.2.2 fun j => rfl
  have hresult : (receive_metrics now (fun _ => false) db p).1 =
      (Stmt.upsert p.system :: (p.metrics.map Stmt.metric ++ p.alerts.map Stmt.alert)).foldl
        (applyStmt now) db := by
    rw [receive_metrics, ingestScript_split]
    exact h.2.1 (h.2.2 fun j => rfl)
  have hfold : (Stmt.upsert p.system ::
        (p.metrics.map Stmt.metric ++ p.alerts.map Stmt.alert)).foldl (applyStmt now) db =
      (p.alerts.map Stmt.alert).foldl (applyStmt now)
        ((p.metrics.map Stmt.metric).foldl (applyStmt now) (upsertSystem now p.system db)) := by
    rw [List.foldl_cons, List.foldl_append]
    rfl
  refine ⟨hflag, ?_, ?_, ?_⟩
  · rw [hresult, hfold, (alertFold_keeps now p.alerts _).1, (metricFold_metrics now p.metrics _).1,
      upsertSystem_metrics]
  · intro r hr hid
    rw [hresult, hfold, (alertFold_keeps now p.alerts _).2,
      (metricFold_metrics now p.metrics _).2] at hr
    exact (upsertSystem_last_seen now p.system db).1 r hr hid
  · obtain ⟨r, hr, hid⟩ := (upsertSystem_last_seen now p.system db).2
    refine ⟨r, ?_, hid⟩
    rw [hresult, hfold, (alertFold_keeps now p.alerts _).2,
      (metricFold_metrics now p.metrics _).2]
    exact hr

/-- Witness for C10: ingesting `c10payload` (system "A", metric fact for "B")
into the empty store succeeds; the stored metric row carries system id "B"
although only "A" was registered, whose `last_seen` is the ingestion time
5. -/
theorem claim_C10_witness :
    (receive_metrics 5 (fun _ => false) db0 c10payload).2 = true ∧
    ((receive_metrics 5 (fun _ => false) db0 c10payload).1).metrics.map
      (fun m => m.system_id) = ["B"] ∧
    c10sysRow ∈ ((receive_metrics 5 (fun _ => false) db0 c10payload).1).systems ∧
    c10sysRow.last_seen = 5 :=
  ⟨(claim_C10_metric_under_fact_system 5 db0 c10payload).1,
   by
    have h := (claim_C10_metric_under_fact_system 5 db0 c10payload).2.1
    simpa [db0, c10payload] using h,
   by decide,
   (claim_C10_metric_under_fact_system 5 db0 c10payload).2.2.1 c10sysRow (by decide) (by decide)⟩

theorem charListLt_irrefl : ∀ as : List Char, charListLt as as = false := by
  intro as
  induction as with
  | nil => rfl
  | cons a as ih => simp [charListLt, lt_irrefl, ih]

theorem charListLt_total : ∀ as bs : List Char,
    as = bs ∨ charListLt as bs = true ∨ charListLt bs as = true := by
  intro as
  induction as with
  | nil =>
    intro bs
    cases bs with
    | nil => exact Or.inl rfl
    | cons b bs => exact Or.inr (Or.inl rfl)
  | cons a as ih =>
    intro bs
    cases bs with
    | nil => exact Or.inr (Or.inr rfl)
    | cons b bs =>
      rcases lt_trichotomy a b with h | h | h
      · exact Or.inr (Or.inl (by simp [charListLt, h]))
      · subst h
        rcases ih bs with h2 | h2 | h2
        · exact Or.inl (by rw [h2])
        · exact Or.inr (Or.inl (by simp [charListLt, lt_irrefl, h2]))
        · exact Or.inr (Or.inr (by simp [charListLt, lt_irrefl, h2]))
      · exact Or.inr (Or.inr (by simp [charListLt, h]))

theorem charListLt_trans : ∀ as bs cs : List Char,
    charListLt as bs = true → charListLt bs cs = true → charListLt as cs = true := by
  intro as
  induction as with
  | nil =>
    intro bs cs h1 h2
    cases bs with
    | nil => simp [charListLt] at h1
    | cons b bs =>
      cases cs with
      | nil => simp [charListLt] at h2
      | cons c cs => rfl
  | cons a as ih =>
    intro bs cs h1 h2
    cases bs with
    | nil => simp [charListLt] at h1
    | cons b bs =>
      cases cs with
      | nil => simp [charListLt] at h2
      | cons c cs =>
        by_cases hab : a < b
        · by_cases hbc : b < c
          · simp [charListLt, lt_trans hab hbc]
          · by_cases hcb : c < b
            · simp [charListLt, hbc, hcb] at h2
            · have hbceq : b = c := le_antisymm (not_lt.mp hcb) (not_lt.mp hbc)
              subst hbceq
              simp [charListLt, hab]
        · by_cases hba : b < a
          · simp [charListLt, hab, hba] at h1
          · have habeq : a = b := le_antisymm (not_lt.mp hba) (not_lt.mp hab)
            subst habeq
            simp only [charListLt, lt_irrefl, if_false] at h1
            by_cases hac : a < c
            · simp [charListLt, hac]
            · by_cases hca : c < a
              · simp [charListLt, hac, hca] at h2
              · have haceq : a = c := le_antisymm (not_lt.mp hca) (not_lt.mp hac)
                subst haceq
                simp only [charListLt, lt_irrefl, if_false] at h2 ⊢
                exact ih bs cs h1 h2

theorem rowOrderLe_refl (x : MetricRow) : rowOrderLe x x = true := by
  simp [rowOrderLe]

theorem rowOrderLe_total (x y : MetricRow) : rowOrderLe x y = true ∨ rowOrderLe y x = true := by
  by_cases hname : x.metric_name = y.metric_name
  · by_cases hts : x.timestamp = y.timestamp
    · rcases Nat.le_total x.rowid y.rowid with h | h
      · exact Or.inl (by simp [rowOrderLe, hname, hts, h])
      · exact Or.inr (by simp [rowOrderLe, hname.symm, hts.symm, h])
    · rcases lt_or_gt_of_ne (fun heq => hts heq) with h | h
      · refine Or.inr ?_
        rw [rowOrderLe, if_pos hname.symm,
          if_neg (fun heq : y.timestamp = x.timestamp => hts heq.symm)]
        simp only [decide_eq_true_eq]
        exact h
      · refine Or.inl ?_
        rw [rowOrderLe, if_pos hname, if_neg hts]
        simp only [decide_eq_true_eq]
        exact h
  · rcases charListLt_total x.metric_name.data y.metric_name.data with h | h | h
    · exact absurd (String.ext h) hname
    · refine Or.inl ?_
      rw [rowOrderLe, if_neg hname]
      exact h
    · refine Or.inr ?_
      rw [rowOrderLe, if_neg (fun heq : y.metric_name = x.metric_name => hname heq.symm)]
      exact h

theorem rowOrderLe_trans (x y z : MetricRow) (h1 : rowOrderLe x y = true)
    (h2 : rowOrderLe y z = true) : rowOrderLe x z = true := by
  by_cases hxy : x.metric_name = y.metric_name <;>
    by_cases hyz : y.metric_name = z.metric_name
  · have hxz : x.metric_name = z.metric_name := hxy.trans hyz
    rw [rowOrderLe, if_pos hxy] at h1
    rw [rowOrderLe, if_pos hyz] at h2
    rw [rowOrderLe, if_pos hxz]
    by_cases t1 : x.timestamp = y.timestamp <;> by_cases t2 : y.timestamp = z.timestamp
    · rw [if_pos t1] at h1
      rw [if_pos t2] at h2
      rw [if_pos (t1.trans t2)]
      simp only [decide_eq_true_eq] at h1 h2 ⊢
      omega
    · rw [if_pos t1] at h1
      rw [if_neg t2] at h2
      simp only [decide_eq_true_eq] at h2
      have hne : ¬ x.timestamp = z.timestamp := by omega
      rw [if_neg hne]
      simp only [decide_eq_true_eq]
      omega
    · rw [if_neg t1] at h1
      rw [if_pos t2] at h2
      simp only [decide_eq_true_eq] at h1
      have hne : ¬ x.timestamp = z.timestamp := by omega
      rw [if_neg hne]
      simp only [decide_eq_true_eq]
      omega
    · rw [if_neg t1] at h1
      rw [if_neg t2] at h2
      simp only [decide_eq_true_eq] at h1 h2
      have hne : ¬ x.timestamp = z.timestamp := by omega
      rw [if_neg hne]
      simp only [decide_eq_true_eq]
      omega
  · have hxz : ¬ x.metric_name = z.metric_name := by
      rw [hxy]
      exact hyz
    rw [rowOrderLe, if_neg hyz] at h2
    rw [rowOrderLe, if_neg hxz]
    have hdata : x.metric_name.data = y.metric_name.data := by rw [hxy]
    rw [hdata]
    exact h2
  · have hxz : ¬ x.metric_name = z.metric_name := by
      rw [← hyz]
      exact hxy
    rw [rowOrderLe, if_neg hxy] at h1
    rw [rowOrderLe, if_neg hxz]
    have hdata : z.metric_name.data = y.metric_name.data := by rw [hyz]
    rw [hdata]
    exact h1
  · rw [rowOrderLe, if_neg hxy] at h1
    rw [rowOrderLe, if_neg hyz] at h2
    have h3 := charListLt_trans _ _ _ h1 h2
    by_cases hxz : x.metric_name = z.metric_name
    · exfalso
      have hdata : x.metric_name.data = z.metric_name.data := by rw [hxz]
      rw [hdata, charListLt_irrefl] at h3
      exact Bool.noConfusion h3
    · rw [rowOrderLe, if_neg hxz]
      exact h3

theorem sortRows_sorted (l : List MetricRow) : List.Sorted rowOrderR (sortRows l) :=
  @List.sorted_insertionSort _ rowOrderR rowOrderDec ⟨rowOrderLe_total⟩
    ⟨rowOrderLe_trans⟩ l

theorem sortRows_perm (l : List MetricRow) : (sortRows l).Perm l :=
  @List.perm_insertionSort _ rowOrderR rowOrderDec l

theorem find_min_of_sorted (p : MetricRow → Bool) :
    ∀ l : List MetricRow, List.Sorted rowOrderR l → ∀ m, l.find? p = some m →
      p m = true ∧ m ∈ l ∧ ∀ x ∈ l, p x = true → rowOrderLe m x = true := by
  intro l
  induction l with
  | nil =>
    intro _ m h
    cases h
  | cons a t ih =>
    intro hsort m hfind
    rw [List.sorted_cons] at hsort
    by_cases hpa : p a = true
    · rw [List.find?_cons_of_pos _ hpa] at hfind
      injection hfind with heq
      subst heq
      refine ⟨hpa, List.mem_cons_self a t, fun x hx hpx => ?_⟩
      rcases List.mem_cons.mp hx with rfl | hx
      · exact rowOrderLe_refl _
      · exact hsort.1 x hx
    · rw [List.find?_cons_of_neg _ hpa] at hfind
      obtain ⟨hpm, hmem, hmin⟩ := ih hsort.2 m hfind
      refine ⟨hpm, List.mem_cons_of_mem a hmem, fun x hx hpx => ?_⟩
      rcases List.mem_cons.mp hx with rfl | hx
      · exact absurd hpx hpa
      · exact hmin x hx hpx

/-- Claim C2 (amended): for a `(disk, attribute)` pair whose in-window points
all carry one and the same raw metric name and pairwise-distinct timestamps,
the projection of `get_system_disks` is defined (when the pair has points) and
returns the unique maximal-timestamp point.  In general the query output is
ordered by raw name FIRST and timestamp second, so when distinct raw names
decode to the same pair, or when timestamps tie, the returned point need not
be the `(timestamp, insertion_sequence)` maximum — see the counterexample. -/
theorem claim_C2_latest_projection :
    ∀ (db : List MetricRow) (sid : String) (now hours : Int) (d a : String),
      (∀ m ∈ diskPairRows db sid now hours d a, ∀ m' ∈ diskPairRows db sid now hours d a,
          m.metric_name = m'.metric_name) →
      (∀ m ∈ diskPairRows db sid now hours d a, ∀ m' ∈ diskPairRows db sid now hours d a,
          m.timestamp = m'.timestamp → m = m') →
      (diskPairRows db sid now hours d a ≠ [] →
        ∃ m, latestDiskAttr db sid now hours d a = some m) ∧
      (∀ m, latestDiskAttr db sid now hours d a = some m →
        m ∈ diskPairRows db sid now hours d a ∧
        ∀ m' ∈ diskPairRows db sid now hours d a, m' ≠ m →
          m'.timestamp < m.timestamp) := by
  intro db sid now hours d a hname hts
  constructor
  · intro hne
    obtain ⟨x, hx⟩ := List.exists_mem_of_ne_nil _ hne
    have hxw := List.mem_filter.mp hx
    have hxs : x ∈ sortRows (diskWindowRows db sid now hours) :=
      (sortRows_perm _).mem_iff.mpr hxw.1
    rw [latestDiskAttr]
    exact Option.isSome_iff_exists.mp (List.find?_isSome.mpr ⟨x, hxs, hxw.2⟩)
  · intro m hfind
    rw [latestDiskAttr] at hfind
    obtain ⟨hpm, hmem, hmin⟩ :=
      find_min_of_sorted _ _ (sortRows_sorted (diskWindowRows db sid now hours)) m hfind
    have hmemw : m ∈ diskWindowRows db sid now hours := (sortRows_perm _).mem_iff.mp hmem
    have hpair : m ∈ diskPairRows db sid now hours d a := List.mem_filter.mpr ⟨hmemw, hpm⟩
    refine ⟨hpair, fun m' hm' hne => ?_⟩
    have hm'w := List.mem_filter.mp hm'
    have hm's : m' ∈ sortRows (diskWindowRows db sid now hours) :=
      (sortRows_perm _).mem_iff.mpr hm'w.1
    have hle : rowOrderLe m m' = true := hmin m' hm's hm'w.2
    have hnm : m.metric_name = m'.metric_name := hname m hpair m' hm'
    rw [rowOrderLe, if_pos hnm] at hle
    by_cases ht : m.timestamp = m'.timestamp
    · exact absurd (hts m' hm' m hpair ht.symm) hne
    · rw [if_neg ht] at hle
      simpa using hle

/-- Counterexample to C2 as stated: the raw names `"a_value"` and `"a"` both
decode to the pair `("a", "value")`; the query orders by raw name first, so
the projection returns the OLDER row `c2row2` (timestamp 5) although
`c2row1` (timestamp 10, higher insertion sequence) is among the pair's
in-window points — the maximal `(timestamp, insertion_sequence)` point is not
returned. -/
theorem claim_C2_counterexample :
    latestDiskAttr c2db "s1" 11 24 "a" "value" = some c2row2 ∧
    c2row1 ∈ diskPairRows c2db "s1" 11 24 "a" "value" ∧
    c2row2.timestamp < c2row1.timestamp ∧ c2row1 ≠ c2row2 := by
  refine ⟨by decide, by decide, by decide, by decide⟩

/-- Witness for C2 at a same-name distinct-timestamp log: the projection picks
the newer point `c2wRow2`, and the other point of the pair is strictly
older. -/
theorem claim_C2_witness :
    c2wRow2 ∈ diskPairRows c2wDb "s" 100 24 "d0" "temperature" ∧
    c2wRow1.timestamp < c2wRow2.timestamp :=
  have h := (claim_C2_latest_projection c2wDb "s" 100 24 "d0" "temperature" (by decide)
    (by decide)).2 c2wRow2 (by decide)
  ⟨h.1, h.2 c2wRow1 (by decide) (by decide)⟩
